import Mathlib

/-!
Verification of the d3m message-bus dispatch engine (`src/bases/d3m`):
a shallow embedding, in Lean 4, of the lifecycle state machine
(`messagebus/messagebus.py`), the execution context
(`messagebus/context.py`), the aggregated handler collection
(`messagebus/collection.py`), the handlers registry
(`hc/collection.py`, `hc/command_handler.py`) and the subscription
retry wrapper (`hc/subscribe_config.py`), together with theorems
settling the specified properties of these components.
-/

namespace D3M

/-- Message key: the pair of domain name and message name used to index
command and event handlers (`(DomainName, MessageName)` tuples in the
Python code). -/
structure Key where
  domain : String
  name : String
deriving DecidableEq, Repr

/-- Dependency / payload values.  A small closed universe standing for the
Python runtime values that appear in payload dicts and dependency maps:
integers, strings and UUIDs (a UUID is abstracted to a numeric seed). -/
inductive Val where
  | vInt (n : Int)
  | vStr (s : String)
  | vUuid (u : Nat)
deriving DecidableEq, Repr

/-- Python-side type annotations relevant to dependency filtering and
payload models: `int`, `str`, `UUID`. -/
inductive Ty where
  | tInt
  | tStr
  | tUuid
deriving DecidableEq, Repr

/-- The runtime type of a value, as `isinstance` sees it. -/
def Val.typeOf : Val → Ty
  | .vInt _ => .tInt
  | .vStr _ => .tStr
  | .vUuid _ => .tUuid

/-- Association list with string keys.  Python dicts of dependencies and
payloads are embedded as ordered association lists; lookups take the
first matching entry. -/
def Dict : Type := List (String × Val)

instance : DecidableEq Dict := by
  unfold Dict
  infer_instance

instance : Repr Dict := by
  unfold Dict
  infer_instance

instance : Append Dict := ⟨fun a b => List.append a b⟩

/-- First-match association-list lookup (dict subscript). -/
def dictGet : Dict → String → Option Val
  | [], _ => none
  | (k, v) :: rest, k2 => if k = k2 then some v else dictGet rest k2

/-- Merge of two Python dicts written `{**old, **new}` or
`dict(ChainMap(new, old))`: entries of `new` shadow entries of `old`.
Represented so that `dictGet` consults `new` first. -/
def dictMerge (old new : Dict) : Dict := (new ++ old : List (String × Val))

/-- Message type tag (`MessageType` in `d3m/core/types.py`). -/
inductive MsgType where
  | command
  | event
deriving DecidableEq, Repr

/-- A domain message (`IMessage`): domain/name key, type tag, unique
reference, creation timestamp and payload.  `isConcrete` records whether
the runtime object is an instance of the registered concrete command
class for its key (a `DomainCommand` subclass) rather than a generic
`UniversalMessage`; `get_command_handler` re-hydrates exactly when it is
not. -/
structure Msg where
  key : Key
  mtype : MsgType
  reference : Nat
  timestamp : Nat
  payload : Dict
  isConcrete : Bool
deriving DecidableEq, Repr

/- ------------------------------------------------------------------
Execution context (`messagebus/context.py`).

`MessagebusContext` keeps two context variables: the dependency map and
the current message.  `__enter__` snapshots both values on the parent
object and hands out a child sharing the same variables; mutations
(`set_context_message`, `update_dependencies`) write to the shared
variables; `__exit__` writes the snapshots back, so the parent's values
are restored on every exit path, including exits caused by an exception
inside the body.
------------------------------------------------------------------ -/

/-- The shared state carried by the two context variables of
`MessagebusContext`: the dependency map and the current message. -/
structure CtxCell where
  deps : Dict
  msg : Option Msg
deriving DecidableEq, Repr

/-- One step performed inside an `enter`/`exit` scope of the execution
context: setting the context message, merging dependencies
(`update_dependencies` computes `{**old, **new}`), opening a nested
scope, or raising an exception (which aborts the remaining steps of the
innermost body while every enclosing `with` block still runs its
`__exit__`). -/
inductive BodyStep where
  | setMsg (m : Msg)
  | updateDeps (d : Dict)
  | scope (body : List BodyStep)
  | raiseExn
deriving Repr

/-- Run a sequence of body steps over the shared context state,
returning the resulting state together with the raised-exception flag.
A `scope` step mirrors `with MessagebusContext(): __enter__` snapshots
the current values, the inner body runs, and `__exit__` writes the
snapshots back whether or not the body raised; a raised exception then
propagates to the enclosing scope. -/
def runSteps : CtxCell → List BodyStep → CtxCell × Bool
  | cell, [] => (cell, false)
  | cell, step :: rest =>
    match step with
    | .setMsg m => runSteps { cell with msg := some m } rest
    | .updateDeps d => runSteps { cell with deps := dictMerge cell.deps d } rest
    | .raiseExn => (cell, true)
    | .scope body =>
      let savedDeps := cell.deps
      let savedMsg := cell.msg
      let inner := runSteps cell body
      let restored : CtxCell := { deps := savedDeps, msg := savedMsg }
      if inner.snd then (restored, true) else runSteps restored rest

/- ------------------------------------------------------------------
Lifecycle guard of `Messagebus.handle_message`
(`messagebus/messagebus.py`, lines 186-199).
------------------------------------------------------------------ -/

/-- Lifecycle errors raised synchronously by `handle_message`:
`RuntimeError("Messagebus is not running")` and
`RuntimeError("Messagebus is closed")`. -/
inductive LifecycleError where
  | notRunning
  | closed
deriving DecidableEq, Repr

/-- The lifecycle flags of a `Messagebus` observed by `handle_message`,
together with the current context message of its execution context. -/
structure BusFlags where
  isRunning : Bool
  isClosed : Bool
  ctxMsg : Option Msg
deriving DecidableEq, Repr

/-- Lifecycle check at the top of `Messagebus.handle_message`: raise
`notRunning` when the bus is not running and there is no current context
message; otherwise raise `closed` when the bus is closed; otherwise
accept the message. -/
def handleMessageGuard (s : BusFlags) : Except LifecycleError Unit :=
  if s.isRunning = false ∧ s.ctxMsg = none then .error .notRunning
  else if s.isClosed then .error .closed
  else .ok ()

/- ------------------------------------------------------------------
Handlers registry lookup (`hc/collection.py`, `hc/command_handler.py`).
------------------------------------------------------------------ -/

/-- Association-list lookup keyed by message `Key` (Python dict
`.get`). -/
def keyGet {α : Type} : List (Key × α) → Key → Option α
  | [], _ => none
  | (k, v) :: rest, k2 => if k = k2 then some v else keyGet rest k2

/-- The payload model of a registered concrete command class: its
message key and its declared fields with their annotated types
(the pydantic model behind a `DomainCommand` subclass). -/
structure CmdClass where
  key : Key
  fields : List (String × Ty)
deriving DecidableEq, Repr

/-- Coercion applied by pydantic validation (default, lax mode) to a
single payload value against a declared field type: a value of exactly
the declared type is kept, and a numeric string is coerced to `int`;
everything else is a validation error.  Modelled from pydantic's
documented default ("smart") validation used by
`BaseDomainMessageMeta.load` via `model_validate`. -/
def coerceVal : Ty → Val → Option Val
  | .tInt, .vInt n => some (.vInt n)
  | .tInt, .vStr s => (s.toInt?).map Val.vInt
  | .tStr, .vStr s => some (.vStr s)
  | .tUuid, .vUuid u => some (.vUuid u)
  | _, _ => none

/-- Validation of a raw payload against a payload model, as performed by
`model_validate` followed by `model_dump` inside
`BaseDomainMessageMeta.load`: every declared field must be present and
coercible, the result keeps exactly the declared fields (extra payload
keys are dropped, pydantic's default `extra` behaviour, mirrored by the
`load` used in the repository's own test fixtures), in declaration
order. -/
def validatePayload : List (String × Ty) → Dict → Option Dict
  | [], _ => some []
  | (fname, fty) :: rest, payload =>
    match dictGet payload fname with
    | none => none
    | some v =>
      match coerceVal fty v with
      | none => none
      | some v2 =>
        match validatePayload rest payload with
        | none => none
        | some tail => some ((fname, v2) :: tail)

/-- The `load` classmethod of `BaseDomainMessageMeta`
(`domain/bases.py`): validate the payload into a fresh instance of the
concrete class and install the given reference and timestamp on it. -/
def CmdClass.load (cls : CmdClass) (payload : Dict) (reference timestamp : Nat) :
    Option Msg :=
  (validatePayload cls.fields payload).map fun canon =>
    { key := cls.key
      mtype := .command
      reference := reference
      timestamp := timestamp
      payload := canon
      isConcrete := true }

/-- The `isinstance(__command, handler.command_class)` test in
`HandlersCollection.get_command_handler`: the message is an instance of
the bound concrete class when it is a concrete command object for that
class's key. -/
def msgIsInstanceOf (m : Msg) (cls : CmdClass) : Bool :=
  m.isConcrete && m.key = cls.key && m.mtype = .command

/-- A registered command handler (`CommandHandler` in
`hc/command_handler.py`): the identity of the wrapped coroutine
function, the bound command class, the declared non-command dependency
parameters of its signature, and the accumulated default
dependencies. -/
structure RHandler where
  funcId : Nat
  cls : CmdClass
  params : List (String × Ty)
  defaults : Dict
deriving DecidableEq, Repr

/-- Errors raised by a single registry's `get_command_handler` and the
helpers it calls: key not registered in the collection
(`RuntimeError`), a supplied dependency value failing the
`isinstance(value, param.annotation)` check in
`CommandHandler._filter_arguments_by_signature` (`TypeError`), and a
failure to re-hydrate the command (pydantic `ValidationError` inside
`load`). -/
inductive MemberError where
  | notRegistered
  | typeMismatch (param : String)
  | validationFailed
deriving DecidableEq, Repr

/-- `CommandHandler._filter_arguments_by_signature`: walk the declared
parameters; every supplied dependency matching a parameter name must
have exactly the annotated runtime type, otherwise a `TypeError` is
raised; dependencies not named by any parameter are dropped. -/
def filterArgumentsBySignature (params : List (String × Ty)) (deps : Dict) :
    Except MemberError Dict :=
  match params with
  | [] => .ok []
  | (pname, pty) :: rest =>
    match dictGet deps pname with
    | none => filterArgumentsBySignature rest deps
    | some v =>
      if v.typeOf = pty then
        match filterArgumentsBySignature rest deps with
        | .error e => .error e
        | .ok tail => .ok ((pname, v) :: tail)
      else .error (.typeMismatch pname)

/-- `CommandHandler.with_defaults`: with no supplied values the handler
is returned unchanged, otherwise the supplied values are filtered and
type-checked against the signature and merged over the existing
defaults (`ChainMap(filtered, defaults)`, the new values winning). -/
def RHandler.withDefaults (h : RHandler) (deps : Dict) : Except MemberError RHandler :=
  if deps = [] then .ok h
  else
    match filterArgumentsBySignature h.params deps with
    | .error e => .error e
    | .ok filtered => .ok { h with defaults := dictMerge h.defaults filtered }

/-- A handler resolved for one concrete dispatch: the result of
`handler.with_defaults(**dependencies).with_command(command)`. -/
structure BoundHandler where
  funcId : Nat
  command : Msg
  defaults : Dict
deriving DecidableEq, Repr

/-- A single handlers registry as seen by command lookup
(`HandlersCollection`): its per-instance `_command_handlers` map. -/
structure HCollection where
  commandHandlers : List (Key × RHandler)
deriving DecidableEq, Repr

/-- `HandlersCollection.get_command_handler`: look the command's key up
in the per-instance map (error when absent); re-hydrate the message via
`command_class.load(payload, reference, timestamp)` when it is not an
instance of the bound concrete class; then bind the type-checked
dependencies and the command. -/
def hcGetCommandHandler (c : HCollection) (cmd : Msg) (deps : Dict) :
    Except MemberError BoundHandler :=
  match keyGet c.commandHandlers cmd.key with
  | none => .error .notRegistered
  | some h =>
    let hydrated : Except MemberError Msg :=
      if msgIsInstanceOf cmd h.cls then .ok cmd
      else
        match h.cls.load cmd.payload cmd.reference cmd.timestamp with
        | none => .error .validationFailed
        | some cmd2 => .ok cmd2
    match hydrated with
    | .error e => .error e
    | .ok cmd2 =>
      match h.withDefaults deps with
      | .error e => .error e
      | .ok h2 => .ok { funcId := h2.funcId, command := cmd2, defaults := h2.defaults }

/- ------------------------------------------------------------------
Aggregated registry (`messagebus/collection.py`).
------------------------------------------------------------------ -/

/-- Errors raised by `MessagebusHandlersCollection.get_command_handler`:
no member collection produced a handler, or more than one did. -/
inductive AggError where
  | handlerNotFound
  | handlerConflict
deriving DecidableEq, Repr

/-- `MessagebusHandlersCollection.get_command_handler`: ask every
included collection for a handler, suppressing every exception a member
lookup raises (`with suppress(Exception)`), then require exactly one
success; zero successes raise "not registered", several raise "more one
handler registered". -/
def mbGetCommandHandler (colls : List HCollection) (cmd : Msg) (deps : Dict) :
    Except AggError BoundHandler :=
  let results := colls.filterMap fun c => (hcGetCommandHandler c cmd deps).toOption
  match results with
  | [h] => .ok h
  | [] => .error .handlerNotFound
  | _ => .error .handlerConflict

/- ------------------------------------------------------------------
Event dispatch aggregation (`Messagebus._handle_event`,
`messagebus/messagebus.py` lines 221-240).
------------------------------------------------------------------ -/

/-- An exception object raised by a handler, distinguishable by a tag
and a numeric datum. -/
structure Exn where
  tag : String
  data : Nat
deriving DecidableEq, Repr

instance {ε α : Type} [DecidableEq ε] [DecidableEq α] : DecidableEq (Except ε α) := fun x y =>
  match x, y with
  | .ok a, .ok b =>
    if h : a = b then .isTrue (by rw [h]) else .isFalse (by intro he; cases he; exact h rfl)
  | .error a, .error b =>
    if h : a = b then .isTrue (by rw [h]) else .isFalse (by intro he; cases he; exact h rfl)
  | .ok _, .error _ => .isFalse (by intro he; cases he)
  | .error _, .ok _ => .isFalse (by intro he; cases he)

/-- One scheduled handler task of an event dispatch: the number of
scheduler steps it needs before completing, and its final outcome
(a returned value or a raised exception object). -/
structure ATask where
  steps : Nat
  outcome : Except Exn Val
deriving DecidableEq, Repr

/-- Whether a single task has finished by the given scheduler time. -/
def taskDoneAt (t : ATask) (time : Nat) : Bool := t.steps ≤ time

/-- The state of the aggregate future returned by `_handle_event` at a
scheduler time: `asyncio.gather(*tasks, return_exceptions=True)`
resolves exactly when every scheduled task has finished, and resolves
to the list of per-task outcomes, each entry being either that
handler's result or the exception object it raised.  The wrapping
`_set_task_result` callback then copies this list into the returned
future unchanged, because a gather with `return_exceptions=True` never
carries an exception itself. -/
def handleEventFutureAt (tasks : List ATask) (time : Nat) :
    Option (List (Except Exn Val)) :=
  if tasks.all (fun t => taskDoneAt t time) then
    some (tasks.map fun t => t.outcome)
  else none

/- ------------------------------------------------------------------
Subscription retry wrapper (`hc/subscribe_config.py`).

`SubscribeConfig.__init__` builds
`tenacity.AsyncRetrying(stop=stop, wait=wait, retry=retry, reraise=True)`
(line 38) and `build_handler` wraps the bound handler in a fresh copy of
it.  The retry loop itself lives in the external `tenacity` library and
is not part of this repository's sources.
------------------------------------------------------------------ -/

/-- Final outcome of a retry-wrapped handler call.  `rawError` is the
underlying handler's own exception re-raised unchanged; `wrappedError`
stands for tenacity's `RetryError` wrapper, which is only produced when
`reraise` is false. -/
inductive RetryOutcome where
  | success (v : Val)
  | rawError (e : Exn)
  | wrappedError (e : Exn)
deriving DecidableEq, Repr

/-- Modelled from the spec: the retry loop of tenacity's `AsyncRetrying`
(configured in `SubscribeConfig` but implemented in the external
tenacity library, absent from `src/`), per spec section 4.4: attempt the
handler; on an exception matching the retryable predicate, retry up to
the stop policy's maximum number of attempts, re-raising the last
exception after exhaustion (`reraise=True`); an exception not matching
the predicate is re-raised immediately and never retried.  `fn n` is the
underlying handler's behaviour on its n-th invocation; the result pairs
the number of invocations performed with the final outcome. -/
def retryLoop (isRetryable : Exn → Bool) (maxAttempts : Nat) (reraise : Bool)
    (fn : Nat → Except Exn Val) (attempt : Nat) : Nat × RetryOutcome :=
  match fn attempt with
  | .ok v => (attempt, .success v)
  | .error e =>
    if isRetryable e = false then (attempt, .rawError e)
    else if maxAttempts ≤ attempt then
      (attempt, if reraise then .rawError e else .wrappedError e)
    else retryLoop isRetryable maxAttempts reraise fn (attempt + 1)
termination_by maxAttempts - attempt

/-- A call of the handler built by `SubscribeConfig.build_handler` with
a `stop_after_attempt` policy: the retry loop starts at attempt 1, and
the configuration in `SubscribeConfig.__init__` fixes `reraise=True`. -/
def subscriptionCall (isRetryable : Exn → Bool) (maxAttempts : Nat)
    (fn : Nat → Except Exn Val) : Nat × RetryOutcome :=
  retryLoop isRetryable maxAttempts true fn 1

/- ------------------------------------------------------------------
Bus startup (`Messagebus.run`, `messagebus/messagebus.py` lines
104-119).
------------------------------------------------------------------ -/

/-- Externally observable effects of a `run()` call, in order: the
lifecycle notifications emitted through the events manager, the refresh
of the member collections' defaults, and the startup half of the
lifespan context. -/
inductive RunEffect where
  | emitBeforeRun
  | updateDefaults
  | lifespanStartup
  | emitAfterRun
deriving DecidableEq, Repr

/-- Errors raised synchronously by `run()`: the bus is closed, the bus
has no handler collections, or a different bus is already the running
bus of the current thread. -/
inductive RunError where
  | closedErr
  | noHandlers
  | concurrencyErr
deriving DecidableEq, Repr

/-- The bus state read and written by `run()`: the lifecycle flags, the
number of included collections, whether the lifespan context has already
been entered, and whether a different messagebus is currently registered
as the running one. -/
structure RunState where
  isRunning : Bool
  isClosed : Bool
  collections : Nat
  inLifespanContext : Bool
  otherBusRunning : Bool
deriving DecidableEq, Repr

/-- `Messagebus.run`: return immediately when already running; fail when
closed, when no collection is included, or when another bus is running;
otherwise emit `BEFORE_RUN`, refresh collection defaults, enter the
lifespan context if this is the first run, set the running flag,
register the bus as the current one and emit `AFTER_RUN`. -/
def runBus (s : RunState) : Except RunError (RunState × List RunEffect) :=
  if s.isRunning then .ok (s, [])
  else if s.isClosed then .error .closedErr
  else if s.collections = 0 then .error .noHandlers
  else if s.otherBusRunning then .error .concurrencyErr
  else if s.inLifespanContext then
    .ok ({ s with isRunning := true },
      [.emitBeforeRun, .updateDefaults, .emitAfterRun])
  else
    .ok ({ s with isRunning := true, inLifespanContext := true },
      [.emitBeforeRun, .updateDefaults, .lifespanStartup, .emitAfterRun])

/- ------------------------------------------------------------------
Graceful shutdown drain (`Messagebus.stop` /
`Messagebus._wait_current_tasks`, `messagebus/messagebus.py` lines
143-164).

`stop()` flips the running flag and then runs `_wait_current_tasks`:
take the currently tracked tasks, `await asyncio.gather(...)` over them,
then re-read the tracked map, keeping only tasks not yet done, and
repeat until that list is empty.  While a wave of tasks is being
awaited, its handlers may dispatch further messages, whose tasks enter
the same tracked map (nested dispatch is admitted by the context-message
clause of `handle_message` even though the bus is no longer running);
fresh external dispatch is rejected.  The in-flight work therefore forms
a forest: each awaited task completes and leaves behind the tasks it
spawned.
------------------------------------------------------------------ -/

/-- A forest of in-flight tasks.  `nil` is the empty pending set;
`cons children rest` is a pending task that, while completing, spawns
the tasks of `children`, followed by the remaining pending tasks of
`rest`.  The nesting depth of the forest is the nesting depth of
transitively spawned dispatches. -/
inductive TaskForest where
  | nil : TaskForest
  | cons (children rest : TaskForest) : TaskForest
deriving DecidableEq, Repr

/-- Concatenation of two pending forests. -/
def TaskForest.app : TaskForest → TaskForest → TaskForest
  | .nil, g => g
  | .cons c r, g => .cons c (r.app g)

/-- Number of tasks currently pending (the roots of the forest): the
length of the list `_wait_current_tasks` passes to `asyncio.gather`. -/
def TaskForest.roots : TaskForest → Nat
  | .nil => 0
  | .cons _ r => 1 + r.roots

/-- Total number of tasks in the forest at every nesting depth: the
tasks that must all complete before `stop()` may return. -/
def TaskForest.total : TaskForest → Nat
  | .nil => 0
  | .cons c r => 1 + c.total + r.total

/-- One `await asyncio.gather(*tasks, return_exceptions=True)` of the
drain loop: every currently pending task completes and is removed from
the tracked map by its done callback, and the tasks spawned while those
handlers ran become the new pending set that the loop's re-check
(`[task for task in self._tasks.values() if task.done() is False]`)
picks up. -/
def TaskForest.gatherWave : TaskForest → TaskForest
  | .nil => .nil
  | .cons c r => c.app r.gatherWave

/-- The successive pending sets awaited by the `while tasks:` loop of
`_wait_current_tasks`: the loop gathers the current pending set, then
re-checks the tracked map and repeats; it stops exactly when the
re-check finds no pending task. -/
def drainWaves (f : TaskForest) : List TaskForest :=
  if h : f = .nil then []
  else f :: drainWaves f.gatherWave
termination_by f.total
decreasing_by
  have happ : ∀ a b : TaskForest, (a.app b).total = a.total + b.total := by
    intro a b
    induction a with
    | nil => simp [TaskForest.app, TaskForest.total]
    | cons c r ih => simp [TaskForest.app, TaskForest.total, ih]; omega
  have hwave : ∀ g : TaskForest, g.gatherWave.total + g.roots = g.total := by
    intro g
    induction g with
    | nil => simp [TaskForest.gatherWave, TaskForest.roots, TaskForest.total]
    | cons c r ih =>
      simp [TaskForest.gatherWave, TaskForest.roots, TaskForest.total, happ]
      omega
  have hpos : 1 ≤ f.roots := by
    cases f with
    | nil => exact absurd rfl h
    | cons c r => simp [TaskForest.roots]
  have := hwave f
  omega

/-- The pending set tracked by the bus after `k` gather waves of the
drain loop. -/
def pendingAfter (f : TaskForest) : Nat → TaskForest
  | 0 => f
  | k + 1 => pendingAfter f.gatherWave k

/-- Number of tasks completed over the whole drain: each wave completes
exactly its pending tasks. -/
def drainCompleted (f : TaskForest) : Nat :=
  (drainWaves f).foldr (fun g acc => g.roots + acc) 0

/- ------------------------------------------------------------------
Process-wide command-handler registration
(`HandlersCollection._register_handler`, `hc/collection.py` lines
198-208, `_COMMAND_HANDLERS_MAP` line 75, `set_defaults` lines 279-294,
`__copy__` lines 296-308).
------------------------------------------------------------------ -/

/-- A registry instance of `HandlersCollection`: its per-instance
`_command_handlers` map and its per-domain `_defaults` table. -/
structure Registry where
  handlers : List (Key × RHandler)
  domainDefaults : List (String × Dict)
deriving DecidableEq, Repr

/-- The process-wide registration world: the class-level
`_COMMAND_HANDLERS_MAP` shared by every instance of the collection
class, and the live registry instances. -/
structure World where
  globalMap : List (Key × RHandler)
  instances : List Registry
deriving DecidableEq, Repr

/-- Association-list lookup with string keys over arbitrary values
(the per-domain defaults table). -/
def strGet {α : Type} : List (String × α) → String → Option α
  | [], _ => none
  | (k, v) :: rest, k2 => if k = k2 then some v else strGet rest k2

/-- `HandlersCollection._set_handler_defaults`: apply the instance's
defaults for the handler's domain to the handler
(`handler.with_defaults(**defaults)`). -/
def setHandlerDefaults (r : Registry) (h : RHandler) : Except MemberError RHandler :=
  h.withDefaults ((strGet r.domainDefaults h.cls.key.domain).getD [])

/-- Errors raised by registration-plane operations: the command key is
already claimed in the class-level map (`RuntimeError` in
`_register_handler`), or a default value fails the signature type check
while defaults are applied. -/
inductive RegError where
  | alreadyRegistered
  | defaultsTypeError (param : String)
deriving DecidableEq, Repr

/-- The registration-plane view of an error escaping from
`with_defaults` while defaults are applied. -/
def memberToRegError : MemberError → RegError
  | .typeMismatch p => .defaultsTypeError p
  | _ => .defaultsTypeError ""

/-- Registration-plane operations on the world: `register` a handler on
instance `i`, `__copy__` instance `i` into a new instance (what
`include_collection` does with a registry), create a fresh empty
instance (`HandlersCollection()`), and `set_defaults` on instance
`i`. -/
inductive RegOp where
  | register (i : Nat) (h : RHandler)
  | copyInst (i : Nat)
  | newInst
  | setDefaults (i : Nat) (domain : String) (defaults : Dict)
deriving Repr

/-- The handler-replacement pass of `HandlersCollection.set_defaults`:
walk the registered handlers in insertion order and replace each handler
of the target domain by `_set_handler_defaults(handler)`; a `TypeError`
raised by the signature filter aborts the walk, leaving the remaining
entries untouched. -/
def setDefaultsWalk (dom : String) (defaults : Dict) :
    List (Key × RHandler) → List (Key × RHandler) × Option RegError
  | [] => ([], none)
  | (k, h) :: rest =>
    if k.domain = dom then
      match h.withDefaults defaults with
      | .error e => ((k, h) :: rest, some (memberToRegError e))
      | .ok h2 =>
        let tail := setDefaultsWalk dom defaults rest
        ((k, h2) :: tail.fst, tail.snd)
    else
      let tail := setDefaultsWalk dom defaults rest
      ((k, h) :: tail.fst, tail.snd)

/-- Apply one registration-plane operation to the world, returning the
new world and the error the operation raised, if any.  `register`
mirrors `_register_handler`: refuse when the key is already present in
the class-level map, otherwise apply the instance's domain defaults and
append the handler to both the instance map and the class-level map.  A
raising operation mutates nothing except, for `set_defaults`, the
replacements already performed before the raise. -/
def applyRegOp (w : World) (op : RegOp) : World × Option RegError :=
  match op with
  | .register i h =>
    if (keyGet w.globalMap h.cls.key).isSome then (w, some .alreadyRegistered)
    else
      match w.instances[i]? with
      | none => (w, none)
      | some r =>
        match setHandlerDefaults r h with
        | .error e => (w, some (memberToRegError e))
        | .ok h2 =>
          let r2 : Registry := { r with handlers := r.handlers ++ [(h.cls.key, h2)] }
          ({ globalMap := w.globalMap ++ [(h.cls.key, h2)]
             instances := w.instances.set i r2 },
           none)
  | .copyInst i =>
    match w.instances[i]? with
    | none => (w, none)
    | some r => ({ w with instances := w.instances ++ [r] }, none)
  | .newInst => ({ w with instances := w.instances ++ [⟨[], []⟩] }, none)
  | .setDefaults i dom defaults =>
    match w.instances[i]? with
    | none => (w, none)
    | some r =>
      let walk := setDefaultsWalk dom defaults r.handlers
      let newDom := dictMerge ((strGet r.domainDefaults dom).getD []) defaults
      let r2 : Registry :=
        { handlers := walk.fst, domainDefaults := (dom, newDom) :: r.domainDefaults }
      ({ w with instances := w.instances.set i r2 }, walk.snd)

/-- The owning function recorded in the class-level map for a key. -/
def globalOwner (w : World) (k : Key) : Option Nat :=
  (keyGet w.globalMap k).map fun g => g.funcId

/-- The uniqueness invariant of the registration state: the class-level
map binds each key at most once, every instance map binds each key at
most once, and every binding held by an instance is claimed in the
class-level map with the same owning function. -/
def RegInv (w : World) : Prop :=
  (w.globalMap.map Prod.fst).Nodup ∧
  ∀ r ∈ w.instances,
    (r.handlers.map Prod.fst).Nodup ∧
    ∀ p ∈ r.handlers, globalOwner w p.fst = some p.snd.funcId

/- ------------------------------------------------------------------
Concrete instances used by the witness and counterexample theorems.
------------------------------------------------------------------ -/

/-- Demo command key `test.TestCommand`. -/
def kDemo : Key := ⟨"test", "TestCommand"⟩

/-- Demo concrete command class with a single `str` field `name`. -/
def clsDemo : CmdClass := ⟨kDemo, [("name", Ty.tStr)]⟩

/-- Demo handler owning `kDemo`, with one `int` dependency `x`. -/
def hDemo : RHandler := ⟨1, clsDemo, [("x", Ty.tInt)], []⟩

/-- Demo registry binding `kDemo` to `hDemo`. -/
def RDemo : HCollection := ⟨[(kDemo, hDemo)]⟩

/-- Second demo handler for the same command class. -/
def hDemo2 : RHandler := ⟨2, clsDemo, [], []⟩

/-- Second demo registry, also binding `kDemo`. -/
def RDemo2 : HCollection := ⟨[(kDemo, hDemo2)]⟩

/-- A generic (non-concrete) command message for `kDemo` whose payload
carries the declared field plus an extra key. -/
def mDemo : Msg :=
  ⟨kDemo, .command, 7, 9, [("name", .vStr "John"), ("junk", .vInt 1)], false⟩

/-- A concrete command instance for `kDemo`. -/
def mDemoConcrete : Msg := ⟨kDemo, .command, 7, 9, [("name", .vStr "John")], true⟩

/-- The bound handler produced by dispatching `mDemo` through `RDemo`:
the re-hydrated command keeps reference 7 and timestamp 9 but its
payload has been canonicalized to the declared fields only. -/
def rehydratedDemo : BoundHandler :=
  ⟨1, ⟨kDemo, .command, 7, 9, [("name", .vStr "John")], true⟩, []⟩

/-- A dependency map whose value for `x` has the wrong runtime type. -/
def depsBad : Dict := [("x", Val.vStr "bad")]

/-- Retryable-exception predicate used by the retry witnesses. -/
def retryableTag : Exn → Bool := fun e => e.tag == "retryable"

/-- A handler raising a retryable exception on every attempt, carrying
the attempt number so that successive exceptions are distinct. -/
def alwaysRetryableErr : Nat → Except Exn Val := fun n => .error ⟨"retryable", n⟩

/-- A handler raising a non-retryable exception. -/
def nonRetryableErr : Nat → Except Exn Val := fun _ => .error ⟨"boom", 0⟩

/-- A freshly constructed startable bus state. -/
def freshRunState : RunState := ⟨false, false, 1, false, false⟩

/-- A two-level task forest: two pending tasks, the first of which
spawns one further task while draining. -/
def demoForest : TaskForest := .cons (.cons .nil .nil) (.cons .nil .nil)

/-- The empty registration world. -/
def demoWorld : World := ⟨[], []⟩

/-- A registration world with one instance already owning `kDemo`. -/
def demoWorld2 : World := ⟨[(kDemo, hDemo)], [⟨[(kDemo, hDemo)], []⟩]⟩

/- ==================================================================
Theorems.
================================================================== -/

/-- C8: for every execution-context state and every sequence of
mutations (`set_context_message`, `update_dependencies`, nested scopes,
raised exceptions) performed inside an enter/exit scope of the
execution context, exiting the scope restores the dependency map and the
current message to exactly the values they held immediately before
entry, discarding all child mutations; this holds on every exit path,
including when the body raises, and the exception flag of the body
propagates unchanged through the exit. -/
theorem context_scope_exit_restores (cell : CtxCell) (body : List BodyStep) :
    (runSteps cell [BodyStep.scope body]).fst = cell ∧
    (runSteps cell [BodyStep.scope body]).snd = (runSteps cell body).snd := by
  cases cell with
  | mk d m =>
    simp only [runSteps]
    cases hb : runSteps ⟨d, m⟩ body with
    | mk c2 raised => cases raised <;> simp [runSteps]

/-- C2 counterexample: in the reachable state where the bus has been
closed while a handler dispatch is still draining (running flag false,
closed flag true, context message present), `handle_message` raises a
lifecycle error although the claimed condition "not running and no
current context message" does not hold, refuting the claimed
equivalence at this concrete input. -/
theorem handle_message_guard_iff_refuted :
    ¬ (((handleMessageGuard ⟨false, true, some mDemo⟩).isOk = false) ↔
        ((false = false) ∧ (some mDemo = (none : Option Msg)))) := by
  decide

/-- C2 (amended): `handle_message` raises a lifecycle error if and only
if the bus is not running and there is no current context message, or
the bus is closed; in particular a call made from inside a handler's
dispatch tree succeeds even after `stop()` has set running to false as
long as the bus is not closed, and a call on a closed bus always
fails. -/
theorem handle_message_lifecycle_guard (s : BusFlags) :
    ((handleMessageGuard s).isOk = false ↔
      ((s.isRunning = false ∧ s.ctxMsg = none) ∨ s.isClosed = true)) ∧
    (s.isClosed = false → s.isRunning = false → s.ctxMsg.isSome = true →
      handleMessageGuard s = .ok ()) ∧
    (s.isClosed = true → (handleMessageGuard s).isOk = false) := by
  obtain ⟨r, c, m⟩ := s
  cases r <;> cases c <;> cases m <;>
    simp [handleMessageGuard, Except.isOk, Except.toBool]

/-- C2 witness: a nested call on a stopped but non-closed bus is
accepted, and a call on a closed bus is refused. -/
theorem handle_message_lifecycle_guard_witness :
    handleMessageGuard ⟨false, false, some mDemo⟩ = .ok () ∧
    (handleMessageGuard ⟨true, true, none⟩).isOk = false :=
  ⟨(handle_message_lifecycle_guard ⟨false, false, some mDemo⟩).2.1 rfl rfl rfl,
   (handle_message_lifecycle_guard ⟨true, true, none⟩).2.2 rfl⟩

/-- C6: under a stop-after-3-attempts policy, a subscription-built
handler whose underlying handler raises a retryable exception on every
attempt is invoked exactly 3 times and the error finally raised is the
handler's own last exception, not a wrapper (the configuration fixes
`reraise=True`); an exception not matching the retryable predicate is
re-raised immediately after a single invocation. -/
theorem subscription_retry_semantics (isRetryable : Exn → Bool)
    (e : Nat → Exn) (fn : Nat → Except Exn Val) :
    ((∀ n, fn n = .error (e n)) → (∀ n, isRetryable (e n) = true) →
      subscriptionCall isRetryable 3 fn = (3, .rawError (e 3))) ∧
    (∀ e0, fn 1 = .error e0 → isRetryable e0 = false →
      subscriptionCall isRetryable 3 fn = (1, .rawError e0)) := by
  have step : ∀ attempt, attempt < 3 → fn attempt = .error (e attempt) →
      isRetryable (e attempt) = true →
      retryLoop isRetryable 3 true fn attempt =
        retryLoop isRetryable 3 true fn (attempt + 1) := by
    intro attempt hlt hfn hr
    rw [retryLoop, hfn]
    simp [hr, Nat.not_le.mpr hlt]
  constructor
  · intro hfn hr
    unfold subscriptionCall
    rw [step 1 (by omega) (hfn 1) (hr 1)]
    rw [step 2 (by omega) (hfn 2) (hr 2)]
    rw [retryLoop, hfn 3]
    simp [hr 3]
  · intro e0 hfn hr
    unfold subscriptionCall
    rw [retryLoop, hfn]
    simp [hr]

/-- C6 witness: evaluating the retry wrapper on an always-failing
retryable handler performs 3 invocations and re-raises the third
exception; a non-retryable failure is raised after one invocation. -/
theorem subscription_retry_semantics_witness :
    subscriptionCall retryableTag 3 alwaysRetryableErr =
      (3, .rawError ⟨"retryable", 3⟩) ∧
    subscriptionCall retryableTag 3 nonRetryableErr =
      (1, .rawError ⟨"boom", 0⟩) :=
  ⟨(subscription_retry_semantics retryableTag (fun n => ⟨"retryable", n⟩)
      alwaysRetryableErr).1 (fun _ => rfl) (fun _ => rfl),
   (subscription_retry_semantics retryableTag (fun n => ⟨"retryable", n⟩)
      nonRetryableErr).2 ⟨"boom", 0⟩ rfl (by decide)⟩

/-- C7: `run()` is idempotent: starting a startable bus succeeds and
leaves it running, a second `run()` on the now-running bus returns with
no effect and no state change, and across the two calls exactly one
BEFORE_RUN, one AFTER_RUN and one lifespan startup are performed. -/
theorem run_idempotent (s s1 : RunState) (t1 : List RunEffect)
    (hrun : s.isRunning = false) (hlife : s.inLifespanContext = false)
    (h : runBus s = .ok (s1, t1)) :
    runBus s1 = .ok (s1, []) ∧
    s1.isRunning = true ∧
    t1.count .emitBeforeRun = 1 ∧
    t1.count .emitAfterRun = 1 ∧
    t1.count .lifespanStartup = 1 := by
  unfold runBus at h
  rw [hrun] at h
  simp only [Bool.false_eq_true, if_false] at h
  by_cases hc : s.isClosed = true
  · rw [if_pos hc] at h; cases h
  · rw [if_neg hc] at h
    by_cases hn : s.collections = 0
    · rw [if_pos hn] at h; cases h
    · rw [if_neg hn] at h
      by_cases ho : s.otherBusRunning = true
      · rw [if_pos ho] at h; cases h
      · rw [if_neg ho] at h
        rw [hlife] at h
        simp only [Bool.false_eq_true, if_false, Except.ok.injEq, Prod.mk.injEq] at h
        obtain ⟨hs1, ht1⟩ := h
        subst hs1
        subst ht1
        refine ⟨?_, rfl, by decide, by decide, by decide⟩
        unfold runBus
        simp

/-- C7 witness: the two-call scenario evaluated on a fresh bus state
with one included collection. -/
theorem run_idempotent_witness :
    runBus ⟨true, false, 1, true, false⟩ = .ok (⟨true, false, 1, true, false⟩, []) :=
  (run_idempotent freshRunState ⟨true, false, 1, true, false⟩
    [.emitBeforeRun, .updateDefaults, .lifespanStartup, .emitAfterRun]
    rfl rfl rfl).1

theorem all_done_set (tasks : List ATask) (j : Nat) (t0 t2 : ATask)
    (hj : tasks[j]? = some t0) (hs : t2.steps = t0.steps) (time : Nat) :
    ((tasks.set j t2).all fun t => taskDoneAt t time) =
      (tasks.all fun t => taskDoneAt t time) := by
  induction tasks generalizing j with
  | nil => simp [List.set]
  | cons a l ih =>
    cases j with
    | zero =>
      simp only [List.getElem?_cons_zero, Option.some.injEq] at hj
      subst hj
      simp [List.set, List.all_cons, taskDoneAt, hs]
    | succ j =>
      simp only [List.getElem?_cons_succ] at hj
      simp [List.set, List.all_cons, ih j hj]

/-- C5: the aggregate future returned by an event dispatch resolves
exactly when all scheduled handler tasks have finished — never earlier,
so no handler's failure short-circuits it; its resolved value is the
list of one entry per scheduled handler, each entry being that handler's
own result or raised exception object; and replacing any one handler's
outcome by a failure changes neither when the aggregate resolves nor
any other handler's entry. -/
theorem event_dispatch_aggregate (tasks : List ATask) :
    (∀ time, (handleEventFutureAt tasks time).isSome = true ↔
        ∀ t ∈ tasks, taskDoneAt t time = true) ∧
    (∀ time v, handleEventFutureAt tasks time = some v →
        v.length = tasks.length ∧
        ∀ i : Nat, v[i]? = (tasks[i]?).map fun t => t.outcome) ∧
    (∀ j t0 e, tasks[j]? = some t0 →
        (∀ time,
          (handleEventFutureAt (tasks.set j ⟨t0.steps, .error e⟩) time).isSome =
            (handleEventFutureAt tasks time).isSome) ∧
        (∀ time v2 v i, i ≠ j →
          handleEventFutureAt (tasks.set j ⟨t0.steps, .error e⟩) time = some v2 →
          handleEventFutureAt tasks time = some v →
          v2[i]? = v[i]?)) := by
  refine ⟨?_, ?_, ?_⟩
  · intro time
    simp only [handleEventFutureAt]
    by_cases hc : tasks.all (fun t => taskDoneAt t time) = true
    · simp only [if_pos hc, Option.isSome_some, true_iff]
      intro t ht
      exact List.all_eq_true.mp hc t ht
    · simp only [if_neg hc, Option.isSome_none]
      constructor
      · intro hfe
        exact absurd hfe Bool.false_ne_true
      · intro hall
        exact absurd (List.all_eq_true.mpr hall) hc
  · intro time v hv
    by_cases hc : tasks.all (fun t => taskDoneAt t time) = true
    · simp only [handleEventFutureAt, if_pos hc, Option.some.injEq] at hv
      subst hv
      refine ⟨by simp, ?_⟩
      intro i
      simp [List.getElem?_map]
    · simp [handleEventFutureAt, hc] at hv
  · intro j t0 e hj
    constructor
    · intro time
      simp only [handleEventFutureAt]
      rw [all_done_set tasks j t0 ⟨t0.steps, .error e⟩ hj rfl time]
      by_cases hc : tasks.all (fun t => taskDoneAt t time) = true <;> simp [hc]
    · intro time v2 v i hne h2 h1
      by_cases hc2 : (tasks.set j ⟨t0.steps, .error e⟩).all
          (fun t => taskDoneAt t time) = true
      · simp only [handleEventFutureAt, if_pos hc2, Option.some.injEq] at h2
        by_cases hc1 : tasks.all (fun t => taskDoneAt t time) = true
        · simp only [handleEventFutureAt, if_pos hc1, Option.some.injEq] at h1
          subst h2
          subst h1
          rw [List.map_set]
          rw [List.getElem?_set_ne (by omega)]
        · simp [handleEventFutureAt, hc1] at h1
      · simp [handleEventFutureAt, hc2] at h2

/-- C5 witness: the conjuncts instantiated at a concrete two-task
dispatch in which the first handler fails. -/
theorem event_dispatch_aggregate_witness :
    (handleEventFutureAt [⟨2, .error ⟨"boom", 0⟩⟩, ⟨5, .ok (.vInt 4)⟩] 5).isSome =
      true ∧
    (handleEventFutureAt [⟨2, .error ⟨"boom", 0⟩⟩, ⟨5, .ok (.vInt 4)⟩] 5 =
      some [.error ⟨"boom", 0⟩, .ok (.vInt 4)]) :=
  ⟨((event_dispatch_aggregate [⟨2, .error ⟨"boom", 0⟩⟩, ⟨5, .ok (.vInt 4)⟩]).1 5).mpr
      (by decide),
   by decide⟩

theorem except_toOption_none {ε α : Type} (x : Except ε α)
    (h : x.isOk = false) : x.toOption = none := by
  cases x with
  | ok a => simp [Except.isOk, Except.toBool] at h
  | error e => rfl

theorem except_toOption_some {ε α : Type} (x : Except ε α)
    (h : x.isOk = true) : ∃ a, x = .ok a ∧ x.toOption = some a := by
  cases x with
  | ok a => exact ⟨a, rfl, rfl⟩
  | error e => simp [Except.isOk, Except.toBool] at h

theorem hc_lookup_ok_of_binding (c : HCollection) (cmd : Msg) (h : RHandler)
    (hk : keyGet c.commandHandlers cmd.key = some h)
    (hinst : msgIsInstanceOf cmd h.cls = true) :
    hcGetCommandHandler c cmd [] = .ok ⟨h.funcId, cmd, h.defaults⟩ := by
  unfold hcGetCommandHandler
  rw [hk]
  simp only [hinst, if_pos]
  unfold RHandler.withDefaults
  simp

/-- C3: including two registries that both bind a handler for the same
command key into one bus and dispatching that command raises the
handler-conflict error (stated both operationally, for any two member
registries whose lookups succeed, and at binding level for a concrete
command instance of the bound class), while dispatching a command whose
key is bound by no included registry raises the handler-not-found
error. -/
theorem aggregate_conflict_and_not_found (cmd : Msg) (deps : Dict) :
    (∀ R1 R2 : HCollection, R1 ≠ R2 →
      (hcGetCommandHandler R1 cmd deps).isOk = true →
      (hcGetCommandHandler R2 cmd deps).isOk = true →
      mbGetCommandHandler [R1, R2] cmd deps = .error .handlerConflict) ∧
    (∀ (R1 R2 : HCollection) (h1 h2 : RHandler), R1 ≠ R2 →
      keyGet R1.commandHandlers cmd.key = some h1 →
      keyGet R2.commandHandlers cmd.key = some h2 →
      msgIsInstanceOf cmd h1.cls = true →
      msgIsInstanceOf cmd h2.cls = true →
      mbGetCommandHandler [R1, R2] cmd [] = .error .handlerConflict) ∧
    (∀ colls : List HCollection,
      (∀ c ∈ colls, keyGet c.commandHandlers cmd.key = none) →
      mbGetCommandHandler colls cmd deps = .error .handlerNotFound) := by
  have conflict : ∀ (R1 R2 : HCollection) (d : Dict),
      (hcGetCommandHandler R1 cmd d).isOk = true →
      (hcGetCommandHandler R2 cmd d).isOk = true →
      mbGetCommandHandler [R1, R2] cmd d = .error .handlerConflict := by
    intro R1 R2 d h1 h2
    obtain ⟨b1, _, ht1⟩ := except_toOption_some _ h1
    obtain ⟨b2, _, ht2⟩ := except_toOption_some _ h2
    unfold mbGetCommandHandler
    simp [List.filterMap, ht1, ht2]
  refine ⟨fun R1 R2 _ h1 h2 => conflict R1 R2 deps h1 h2, ?_, ?_⟩
  · intro R1 R2 h1 h2 _ hk1 hk2 hi1 hi2
    have o1 := hc_lookup_ok_of_binding R1 cmd h1 hk1 hi1
    have o2 := hc_lookup_ok_of_binding R2 cmd h2 hk2 hi2
    exact conflict R1 R2 [] (by rw [o1]; rfl) (by rw [o2]; rfl)
  · intro colls hnone
    unfold mbGetCommandHandler
    have : colls.filterMap
        (fun c => (hcGetCommandHandler c cmd deps).toOption) = [] := by
      induction colls with
      | nil => rfl
      | cons c rest ih =>
        have hc := hnone c (by simp)
        have : hcGetCommandHandler c cmd deps = .error .notRegistered := by
          unfold hcGetCommandHandler
          rw [hc]
        simp only [List.filterMap_cons, this]
        exact ih fun c hcmem => hnone c (by simp [hcmem])
    rw [this]

/-- C3 witness: two concrete registries owning the same key produce the
conflict error; the empty aggregate produces the not-found error. -/
theorem aggregate_conflict_and_not_found_witness :
    mbGetCommandHandler [RDemo, RDemo2] mDemoConcrete [] =
      .error .handlerConflict ∧
    mbGetCommandHandler [] mDemoConcrete [] = .error .handlerNotFound :=
  ⟨(aggregate_conflict_and_not_found mDemoConcrete []).2.1 RDemo RDemo2 hDemo
      hDemo2 (by decide) (by decide) (by decide) (by decide) (by decide),
   (aggregate_conflict_and_not_found mDemoConcrete []).2.2 [] (by simp)⟩

/-- C10: every exception raised by a member registry's command lookup —
including the dependency type error raised when a supplied dependency
value does not match the handler parameter's annotated type — is
suppressed by the aggregated registry and treated as that member not
owning the command, so a failing member changes nothing about the
outcome; consequently, when every member's lookup raises, the bus
raises the handler-not-found error regardless of the underlying cause,
and the member's own error object is never propagated to the caller. -/
theorem aggregate_suppresses_member_errors (cmd : Msg) (deps : Dict) :
    (∀ (c : HCollection) (colls : List HCollection),
      (hcGetCommandHandler c cmd deps).isOk = false →
      mbGetCommandHandler (c :: colls) cmd deps =
        mbGetCommandHandler colls cmd deps) ∧
    (∀ colls : List HCollection,
      (∀ c ∈ colls, (hcGetCommandHandler c cmd deps).isOk = false) →
      mbGetCommandHandler colls cmd deps = .error .handlerNotFound) := by
  constructor
  · intro c colls hc
    unfold mbGetCommandHandler
    simp only [List.filterMap_cons, except_toOption_none _ hc]
  · intro colls hall
    unfold mbGetCommandHandler
    have : colls.filterMap
        (fun c => (hcGetCommandHandler c cmd deps).toOption) = [] := by
      induction colls with
      | nil => rfl
      | cons c rest ih =>
        simp only [List.filterMap_cons,
          except_toOption_none _ (hall c (by simp))]
        exact ih fun c hcmem => hall c (by simp [hcmem])
    rw [this]

/-- C10 witness: a registry owning the key but handed a wrongly typed
dependency raises the type error, and the aggregate lookup of the bus
reports handler-not-found, never the type error. -/
theorem aggregate_suppresses_member_errors_witness :
    hcGetCommandHandler RDemo mDemoConcrete depsBad =
      .error (.typeMismatch "x") ∧
    mbGetCommandHandler [RDemo] mDemoConcrete depsBad =
      .error .handlerNotFound :=
  ⟨by decide,
   (aggregate_suppresses_member_errors mDemoConcrete depsBad).2 [RDemo]
      (by decide)⟩

/-- C9 counterexample: dispatching a generic message for the registered
key whose payload carries an extra key alongside the declared field:
lookup re-hydrates it into the bound concrete class and the resulting
command keeps the original reference and timestamp, but its payload is
the model's validated form, which differs from the original payload, so
the payload is not preserved bit-for-bit. -/
theorem rehydration_payload_not_bitforbit :
    mDemo.isConcrete = false ∧
    hcGetCommandHandler RDemo mDemo [] = .ok rehydratedDemo ∧
    rehydratedDemo.command.reference = mDemo.reference ∧
    rehydratedDemo.command.timestamp = mDemo.timestamp ∧
    rehydratedDemo.command.payload ≠ mDemo.payload := by
  decide

/-- C9 (amended): when command lookup re-hydrates a generic message into
the bound concrete class, the re-hydrated command's reference and
timestamp are identical to the original's, and its payload is the bound
model's validated form of the original payload; the payload is
bit-for-bit equal whenever the original payload is already in that
validated form. -/
theorem rehydration_preserves_reference_timestamp
    (c : HCollection) (cmd : Msg) (deps : Dict) (h : RHandler)
    (b : BoundHandler)
    (hk : keyGet c.commandHandlers cmd.key = some h)
    (hni : msgIsInstanceOf cmd h.cls = false)
    (hok : hcGetCommandHandler c cmd deps = .ok b) :
    b.command.reference = cmd.reference ∧
    b.command.timestamp = cmd.timestamp ∧
    validatePayload h.cls.fields cmd.payload = some b.command.payload ∧
    (validatePayload h.cls.fields cmd.payload = some cmd.payload →
      b.command.payload = cmd.payload) := by
  unfold hcGetCommandHandler at hok
  rw [hk] at hok
  simp only [hni, Bool.false_eq_true, if_false] at hok
  cases hload : CmdClass.load h.cls cmd.payload cmd.reference cmd.timestamp with
  | none => rw [hload] at hok; cases hok
  | some cmd2 =>
    rw [hload] at hok
    cases hwd : h.withDefaults deps with
    | error e2 => rw [hwd] at hok; cases hok
    | ok h2 =>
      rw [hwd] at hok
      simp only [Except.ok.injEq] at hok
      subst hok
      unfold CmdClass.load at hload
      cases hval : validatePayload h.cls.fields cmd.payload with
      | none => rw [hval] at hload; cases hload
      | some canon =>
        rw [hval] at hload
        injection hload with hload
        subst hload
        refine ⟨rfl, rfl, rfl, ?_⟩
        intro hcanon
        simp only [hval, Option.some.injEq] at hcanon
        exact hcanon

/-- C9 witness: the amended statement evaluated at the concrete demo
dispatch. -/
theorem rehydration_preserves_reference_timestamp_witness :
    rehydratedDemo.command.reference = mDemo.reference ∧
    rehydratedDemo.command.timestamp = mDemo.timestamp :=
  ⟨(rehydration_preserves_reference_timestamp RDemo mDemo [] hDemo
      rehydratedDemo (by decide) (by decide) (by decide)).1,
   (rehydration_preserves_reference_timestamp RDemo mDemo [] hDemo
      rehydratedDemo (by decide) (by decide) (by decide)).2.1⟩

theorem taskForest_total_app (f g : TaskForest) :
    (f.app g).total = f.total + g.total := by
  induction f with
  | nil => simp [TaskForest.app, TaskForest.total]
  | cons c r ihc ihr => simp [TaskForest.app, TaskForest.total, ihr]; omega

theorem taskForest_total_gatherWave (f : TaskForest) :
    f.gatherWave.total + f.roots = f.total := by
  induction f with
  | nil => simp [TaskForest.gatherWave, TaskForest.roots, TaskForest.total]
  | cons c r ihc ihr =>
    simp [TaskForest.gatherWave, TaskForest.roots, TaskForest.total,
      taskForest_total_app]
    omega

theorem taskForest_roots_pos (f : TaskForest) (h : f ≠ .nil) : 1 ≤ f.roots := by
  cases f with
  | nil => exact absurd rfl h
  | cons c r => simp [TaskForest.roots]

theorem drainWaves_nil : drainWaves .nil = [] := by
  rw [drainWaves]
  simp

theorem drainWaves_cons (f : TaskForest) (h : f ≠ .nil) :
    drainWaves f = f :: drainWaves f.gatherWave := by
  rw [drainWaves]
  simp [h]

theorem stop_drain_aux : ∀ (n : Nat) (f : TaskForest), f.total ≤ n →
    drainCompleted f = f.total ∧
    pendingAfter f (drainWaves f).length = .nil ∧
    ∀ k, k < (drainWaves f).length → pendingAfter f k ≠ .nil := by
  intro n
  induction n with
  | zero =>
    intro f hf
    have hnil : f = .nil := by
      cases f with
      | nil => rfl
      | cons c r => simp [TaskForest.total] at hf
    subst hnil
    refine ⟨?_, ?_, ?_⟩
    · simp [drainCompleted, drainWaves_nil, TaskForest.total]
    · simp [drainWaves_nil, pendingAfter]
    · simp [drainWaves_nil]
  | succ n ih =>
    intro f hf
    by_cases hnil : f = .nil
    · subst hnil
      refine ⟨?_, ?_, ?_⟩
      · simp [drainCompleted, drainWaves_nil, TaskForest.total]
      · simp [drainWaves_nil, pendingAfter]
      · simp [drainWaves_nil]
    · have hwave := taskForest_total_gatherWave f
      have hpos := taskForest_roots_pos f hnil
      obtain ⟨ih1, ih2, ih3⟩ := ih f.gatherWave (by omega)
      refine ⟨?_, ?_, ?_⟩
      · unfold drainCompleted
        rw [drainWaves_cons f hnil]
        simp only [List.foldr_cons]
        have ih1b : (drainWaves f.gatherWave).foldr
            (fun g acc => g.roots + acc) 0 = f.gatherWave.total := ih1
        rw [ih1b]
        omega
      · rw [drainWaves_cons f hnil]
        simp only [List.length_cons]
        simpa [pendingAfter] using ih2
      · intro k hk
        rw [drainWaves_cons f hnil] at hk
        simp only [List.length_cons] at hk
        cases k with
        | zero => simpa [pendingAfter] using hnil
        | succ k =>
          have := ih3 k (by omega)
          simpa [pendingAfter] using this

/-- C1: for every forest of in-flight tasks, the drain loop run by
`stop()` completes exactly every tracked task, including tasks spawned
into the tracked set by handlers while earlier tasks were draining, at
any nesting depth (the number of tasks completed over all waves equals
the total size of the forest); the pending set left after the final
wave is empty, and before every wave the re-checked pending set is
nonempty, so the loop finishes only when no pending tasks remain. -/
theorem stop_drains_all_tasks (f : TaskForest) :
    drainCompleted f = f.total ∧
    pendingAfter f (drainWaves f).length = .nil ∧
    ∀ k, k < (drainWaves f).length → pendingAfter f k ≠ .nil :=
  stop_drain_aux f.total f (Nat.le_refl _)

/-- C1 witness: the drain evaluated on a concrete two-wave forest in
which the first pending task spawns a further task. -/
theorem stop_drains_all_tasks_witness :
    drainCompleted demoForest = demoForest.total ∧
    pendingAfter demoForest 0 ≠ .nil :=
  ⟨(stop_drains_all_tasks demoForest).1,
   (stop_drains_all_tasks demoForest).2.2 0
      (by rw [drainWaves_cons demoForest (by decide)]; simp)⟩

theorem keyGet_append_some {α : Type} {a : List (Key × α)} (b : List (Key × α))
    {k : Key} {v : α} (h : keyGet a k = some v) : keyGet (a ++ b) k = some v := by
  induction a with
  | nil => cases h
  | cons p rest ih =>
    obtain ⟨k1, v1⟩ := p
    by_cases hk : k1 = k
    · simpa [keyGet, hk] using h
    · simp only [keyGet, if_neg hk] at h
      simpa [keyGet, hk] using ih h

theorem keyGet_append_none {α : Type} {a : List (Key × α)} (b : List (Key × α))
    {k : Key} (h : keyGet a k = none) : keyGet (a ++ b) k = keyGet b k := by
  induction a with
  | nil => rfl
  | cons p rest ih =>
    obtain ⟨k1, v1⟩ := p
    by_cases hk : k1 = k
    · simp [keyGet, hk] at h
    · simp only [keyGet, if_neg hk] at h
      simpa [keyGet, hk] using ih h

theorem mem_of_keyGet {α : Type} {l : List (Key × α)} {k : Key} {v : α}
    (h : keyGet l k = some v) : (k, v) ∈ l := by
  induction l with
  | nil => cases h
  | cons p rest ih =>
    obtain ⟨k1, v1⟩ := p
    by_cases hk : k1 = k
    · subst hk
      simp only [keyGet, if_true, Option.some.injEq] at h
      subst h
      simp
    · simp only [keyGet, if_neg hk] at h
      simp [ih h]

theorem keyGet_isSome_of_mem {α : Type} {l : List (Key × α)} {k : Key}
    (h : k ∈ l.map Prod.fst) : (keyGet l k).isSome = true := by
  induction l with
  | nil => simp at h
  | cons p rest ih =>
    obtain ⟨k1, v1⟩ := p
    by_cases hk : k1 = k
    · simp [keyGet, hk]
    · simp only [List.map_cons, List.mem_cons] at h
      rcases h with h | h
      · exact absurd h.symm hk
      · simpa [keyGet, hk] using ih h

theorem withDefaults_preserves {h h2 : RHandler} {d : Dict}
    (hw : h.withDefaults d = .ok h2) :
    h2.funcId = h.funcId ∧ h2.cls = h.cls ∧ h2.params = h.params := by
  unfold RHandler.withDefaults at hw
  by_cases hd : d = []
  · rw [if_pos hd] at hw
    injection hw with hw
    subst hw
    exact ⟨rfl, rfl, rfl⟩
  · rw [if_neg hd] at hw
    cases hf : filterArgumentsBySignature h.params d with
    | error e => rw [hf] at hw; cases hw
    | ok filtered =>
      rw [hf] at hw
      injection hw with hw
      subst hw
      exact ⟨rfl, rfl, rfl⟩

theorem setDefaultsWalk_keys (dom : String) (d : Dict)
    (l : List (Key × RHandler)) :
    (setDefaultsWalk dom d l).fst.map Prod.fst = l.map Prod.fst := by
  induction l with
  | nil => rfl
  | cons p rest ih =>
    obtain ⟨k, h⟩ := p
    by_cases hdom : k.domain = dom
    · simp only [setDefaultsWalk, if_pos hdom]
      cases hw : h.withDefaults d with
      | error e => simp
      | ok h2 => simpa using ih
    · simp only [setDefaultsWalk, if_neg hdom]
      simpa using ih

theorem setDefaultsWalk_keyGet (dom : String) (d : Dict)
    (l : List (Key × RHandler)) (k : Key) (h1 : RHandler)
    (hk : keyGet l k = some h1) :
    ∃ h2, keyGet (setDefaultsWalk dom d l).fst k = some h2 ∧
      h2.funcId = h1.funcId := by
  induction l with
  | nil => cases hk
  | cons p rest ih =>
    obtain ⟨k1, hh⟩ := p
    by_cases hke : k1 = k
    · subst hke
      simp only [keyGet, if_true, Option.some.injEq] at hk
      subst hk
      by_cases hdom : k1.domain = dom
      · simp only [setDefaultsWalk, if_pos hdom]
        cases hw : hh.withDefaults d with
        | error e => exact ⟨hh, by simp [keyGet], rfl⟩
        | ok h2 =>
          exact ⟨h2, by simp [keyGet], (withDefaults_preserves hw).1⟩
      · simp only [setDefaultsWalk, if_neg hdom]
        exact ⟨hh, by simp [keyGet], rfl⟩
    · simp only [keyGet, if_neg hke] at hk
      obtain ⟨h2, hg2, hf2⟩ := ih hk
      by_cases hdom : k1.domain = dom
      · simp only [setDefaultsWalk, if_pos hdom]
        cases hw : hh.withDefaults d with
        | error e =>
          refine ⟨h1, ?_, rfl⟩
          simp [keyGet, hke, hk]
        | ok hh2 =>
          refine ⟨h2, ?_, hf2⟩
          simpa [keyGet, hke] using hg2
      · simp only [setDefaultsWalk, if_neg hdom]
        refine ⟨h2, ?_, hf2⟩
        simpa [keyGet, hke] using hg2

theorem setDefaultsWalk_mem (dom : String) (d : Dict)
    (l : List (Key × RHandler)) :
    ∀ p ∈ (setDefaultsWalk dom d l).fst,
      ∃ h1, (p.fst, h1) ∈ l ∧ p.snd.funcId = h1.funcId := by
  induction l with
  | nil => intro p hp; cases hp
  | cons q rest ih =>
    obtain ⟨k1, hh⟩ := q
    intro p hp
    by_cases hdom : k1.domain = dom
    · simp only [setDefaultsWalk, if_pos hdom] at hp
      cases hw : hh.withDefaults d with
      | error e =>
        rw [hw] at hp
        simp only [List.mem_cons] at hp
        rcases hp with hp | hp
        · exact ⟨hh, by simp [hp], by rw [hp]⟩
        · exact ⟨p.snd, by simp [hp], rfl⟩
      | ok hh2 =>
        rw [hw] at hp
        simp only [List.mem_cons] at hp
        rcases hp with hp | hp
        · subst hp
          exact ⟨hh, by simp, (withDefaults_preserves hw).1⟩
        · obtain ⟨h1, hmem, hfid⟩ := ih p hp
          exact ⟨h1, by simp [hmem], hfid⟩
    · simp only [setDefaultsWalk, if_neg hdom] at hp
      simp only [List.mem_cons] at hp
      rcases hp with hp | hp
      · subst hp
        exact ⟨hh, by simp, rfl⟩
      · obtain ⟨h1, hmem, hfid⟩ := ih p hp
        exact ⟨h1, by simp [hmem], hfid⟩

theorem mem_of_getElem?_some {α : Type} {l : List α} {i : Nat} {a : α}
    (h : l[i]? = some a) : a ∈ l := by
  obtain ⟨hlt, hget⟩ := List.getElem?_eq_some.mp h
  exact hget ▸ List.getElem_mem hlt

theorem globalOwner_of_keyGet {w : World} {k : Key} {g : RHandler}
    (h : keyGet w.globalMap k = some g) : globalOwner w k = some g.funcId := by
  unfold globalOwner
  rw [h]
  rfl

theorem keyGet_of_globalOwner {w : World} {k : Key} {f : Nat}
    (h : globalOwner w k = some f) :
    ∃ g, keyGet w.globalMap k = some g ∧ g.funcId = f := by
  unfold globalOwner at h
  cases hkg : keyGet w.globalMap k with
  | none => rw [hkg] at h; cases h
  | some g =>
    rw [hkg] at h
    injection h with h
    exact ⟨g, rfl, h⟩

/-- C4: at most one command-handler binding exists per key, process-wide
and per-registry, and this is preserved by every registration-plane
operation: the invariant (no duplicate keys in the class-level map or in
any instance map, and every instance binding claimed in the class-level
map with the same owning function) is preserved by register, copy,
fresh-instance and set-defaults operations; registration is append-only
(every claimed key keeps its binding in the class-level map, and every
instance binding keeps its owning function, across every operation); and
`register` raises the already-registered error, changing nothing,
whenever any registry instance of the collection class already holds a
binding for that key. -/
theorem registration_unique_owner (w : World) (op : RegOp) (hInv : RegInv w) :
    RegInv (applyRegOp w op).fst ∧
    (∀ k g, keyGet w.globalMap k = some g →
      keyGet (applyRegOp w op).fst.globalMap k = some g) ∧
    (∀ (j : Nat) (rj rj2 : Registry), w.instances[j]? = some rj →
      (applyRegOp w op).fst.instances[j]? = some rj2 →
      ∀ (k : Key) (hh : RHandler), keyGet rj.handlers k = some hh →
        ∃ h2 : RHandler, keyGet rj2.handlers k = some h2 ∧ h2.funcId = hh.funcId) ∧
    (∀ i h0, (∃ r ∈ w.instances, (keyGet r.handlers h0.cls.key).isSome = true) →
      applyRegOp w (.register i h0) = (w, some .alreadyRegistered)) := by
  obtain ⟨hgn, hinst⟩ := hInv
  have keyInGlobal : ∀ (r : Registry) (k : Key), r ∈ w.instances →
      (keyGet r.handlers k).isSome = true →
      (keyGet w.globalMap k).isSome = true := by
    intro r k hr hsome
    obtain ⟨v, hv⟩ := Option.isSome_iff_exists.mp hsome
    have hown := (hinst r hr).2 (k, v) (mem_of_keyGet hv)
    obtain ⟨g, hg, _⟩ := keyGet_of_globalOwner hown
    simp [hg]
  have conj4 : ∀ i h0,
      (∃ r ∈ w.instances, (keyGet r.handlers h0.cls.key).isSome = true) →
      applyRegOp w (.register i h0) = (w, some .alreadyRegistered) := by
    intro i h0 hex
    obtain ⟨r, hr, hsome⟩ := hex
    have hgs := keyInGlobal r h0.cls.key hr hsome
    simp only [applyRegOp]
    rw [if_pos hgs]
  have hid : (∀ k g, keyGet w.globalMap k = some g →
        keyGet w.globalMap k = some g) ∧
      (∀ (j : Nat) (rj rj2 : Registry), w.instances[j]? = some rj →
        w.instances[j]? = some rj2 →
        ∀ (k : Key) (hh : RHandler), keyGet rj.handlers k = some hh →
          ∃ h2 : RHandler, keyGet rj2.handlers k = some h2 ∧
            h2.funcId = hh.funcId) := by
    refine ⟨fun k g hk => hk, ?_⟩
    intro j rj rj2 hj hj2 k hh hkh
    rw [hj] at hj2
    injection hj2 with hj2
    subst hj2
    exact ⟨hh, hkh, rfl⟩
  cases op with
  | register i h0 =>
    by_cases hgs : (keyGet w.globalMap h0.cls.key).isSome = true
    · have hred : applyRegOp w (.register i h0) = (w, some .alreadyRegistered) := by
        simp only [applyRegOp]
        rw [if_pos hgs]
      rw [hred]
      exact ⟨⟨hgn, hinst⟩, hid.1, hid.2, conj4⟩
    · cases hwi : w.instances[i]? with
      | none =>
        have hred : applyRegOp w (.register i h0) = (w, none) := by
          simp [applyRegOp, hgs, hwi]
        rw [hred]
        exact ⟨⟨hgn, hinst⟩, hid.1, hid.2, conj4⟩
      | some r =>
        cases hsd : setHandlerDefaults r h0 with
        | error e =>
          have hred : applyRegOp w (.register i h0) =
              (w, some (memberToRegError e)) := by
            simp [applyRegOp, hgs, hwi, hsd]
          rw [hred]
          exact ⟨⟨hgn, hinst⟩, hid.1, hid.2, conj4⟩
        | ok h2 =>
          have hrmem : r ∈ w.instances := mem_of_getElem?_some hwi
          have hilen : i < w.instances.length := (List.getElem?_eq_some.mp hwi).1
          have hgnone : keyGet w.globalMap h0.cls.key = none := by
            cases hkg : keyGet w.globalMap h0.cls.key with
            | none => rfl
            | some g => rw [hkg] at hgs; simp at hgs
          have hred : applyRegOp w (.register i h0) =
              ({ globalMap := w.globalMap ++ [(h0.cls.key, h2)],
                 instances := w.instances.set i ({ r with handlers := r.handlers ++ [(h0.cls.key, h2)] } : Registry) },
               none) := by
            simp [applyRegOp, hgs, hwi, hsd]
          rw [hred]
          refine ⟨⟨?_, ?_⟩, ?_, ?_, conj4⟩
          · show ((w.globalMap ++ [(h0.cls.key, h2)]).map Prod.fst).Nodup
            rw [List.map_append, List.nodup_append]
            refine ⟨hgn, by simp, ?_⟩
            intro a ha hb
            simp only [List.map_cons, List.map_nil, List.mem_singleton] at hb
            subst hb
            have := keyGet_isSome_of_mem ha
            rw [hgnone] at this
            cases this
          · intro r' hr'
            rcases List.mem_or_eq_of_mem_set hr' with hold | heq
            · refine ⟨(hinst r' hold).1, ?_⟩
              intro p hp
              have hown := (hinst r' hold).2 p hp
              obtain ⟨g, hg, hgf⟩ := keyGet_of_globalOwner hown
              unfold globalOwner
              rw [keyGet_append_some _ hg]
              simp [hgf]
            · subst heq
              constructor
              · show ((r.handlers ++ [(h0.cls.key, h2)]).map Prod.fst).Nodup
                rw [List.map_append, List.nodup_append]
                refine ⟨(hinst r hrmem).1, by simp, ?_⟩
                intro a ha hb
                simp only [List.map_cons, List.map_nil, List.mem_singleton] at hb
                subst hb
                have hks := keyInGlobal r h0.cls.key hrmem
                  (keyGet_isSome_of_mem ha)
                rw [hgnone] at hks
                cases hks
              · intro p hp
                rw [List.mem_append] at hp
                rcases hp with hp | hp
                · have hown := (hinst r hrmem).2 p hp
                  obtain ⟨g, hg, hgf⟩ := keyGet_of_globalOwner hown
                  unfold globalOwner
                  rw [keyGet_append_some _ hg]
                  simp [hgf]
                · simp only [List.mem_singleton] at hp
                  subst hp
                  unfold globalOwner
                  rw [keyGet_append_none _ hgnone]
                  simp [keyGet]
          · intro k g hk
            exact keyGet_append_some _ hk
          · intro j rj rj2 hj hj2 k hh hkh
            by_cases hji : j = i
            · subst hji
              rw [hwi] at hj
              injection hj with hj
              subst hj
              rw [List.getElem?_set_eq hilen] at hj2
              injection hj2 with hj2
              subst hj2
              exact ⟨hh, keyGet_append_some _ hkh, rfl⟩
            · rw [List.getElem?_set_ne (fun hE => hji hE.symm)] at hj2
              rw [hj] at hj2
              injection hj2 with hj2
              subst hj2
              exact ⟨hh, hkh, rfl⟩
  | copyInst i =>
    cases hwi : w.instances[i]? with
    | none =>
      have hred : applyRegOp w (.copyInst i) = (w, none) := by
        simp [applyRegOp, hwi]
      rw [hred]
      exact ⟨⟨hgn, hinst⟩, hid.1, hid.2, conj4⟩
    | some r =>
      have hrmem : r ∈ w.instances := mem_of_getElem?_some hwi
      have hred : applyRegOp w (.copyInst i) =
          ({ w with instances := w.instances ++ [r] }, none) := by
        simp [applyRegOp, hwi]
      rw [hred]
      refine ⟨⟨hgn, ?_⟩, fun k g hk => hk, ?_, conj4⟩
      · intro r' hr'
        rw [List.mem_append] at hr'
        rcases hr' with hr' | hr'
        · exact hinst r' hr'
        · simp only [List.mem_singleton] at hr'
          rw [hr']
          exact hinst r hrmem
      · intro j rj rj2 hj hj2 k hh hkh
        have hjlen : j < w.instances.length := (List.getElem?_eq_some.mp hj).1
        rw [List.getElem?_append, if_pos hjlen, hj] at hj2
        injection hj2 with hj2
        subst hj2
        exact ⟨hh, hkh, rfl⟩
  | newInst =>
    have hred : applyRegOp w .newInst =
        ({ w with instances := w.instances ++ [⟨[], []⟩] }, none) := rfl
    rw [hred]
    refine ⟨⟨hgn, ?_⟩, fun k g hk => hk, ?_, conj4⟩
    · intro r' hr'
      rw [List.mem_append] at hr'
      rcases hr' with hr' | hr'
      · exact hinst r' hr'
      · simp only [List.mem_singleton] at hr'
        subst hr'
        refine ⟨List.nodup_nil, ?_⟩
        intro p hp
        cases hp
    · intro j rj rj2 hj hj2 k hh hkh
      have hjlen : j < w.instances.length := (List.getElem?_eq_some.mp hj).1
      rw [List.getElem?_append, if_pos hjlen, hj] at hj2
      injection hj2 with hj2
      subst hj2
      exact ⟨hh, hkh, rfl⟩
  | setDefaults i dom d =>
    cases hwi : w.instances[i]? with
    | none =>
      have hred : applyRegOp w (.setDefaults i dom d) = (w, none) := by
        simp [applyRegOp, hwi]
      rw [hred]
      exact ⟨⟨hgn, hinst⟩, hid.1, hid.2, conj4⟩
    | some r =>
      have hrmem : r ∈ w.instances := mem_of_getElem?_some hwi
      have hilen : i < w.instances.length := (List.getElem?_eq_some.mp hwi).1
      have hred : applyRegOp w (.setDefaults i dom d) =
          ({ w with instances := w.instances.set i (⟨(setDefaultsWalk dom d r.handlers).fst, (dom, dictMerge ((strGet r.domainDefaults dom).getD []) d) :: r.domainDefaults⟩ : Registry) },
           (setDefaultsWalk dom d r.handlers).snd) := by
        simp [applyRegOp, hwi]
      rw [hred]
      refine ⟨⟨hgn, ?_⟩, fun k g hk => hk, ?_, conj4⟩
      · intro r' hr'
        rcases List.mem_or_eq_of_mem_set hr' with hold | heq
        · exact hinst r' hold
        · subst heq
          constructor
          · show ((setDefaultsWalk dom d r.handlers).fst.map Prod.fst).Nodup
            rw [setDefaultsWalk_keys]
            exact (hinst r hrmem).1
          · intro p hp
            obtain ⟨h1, hmem, hfid⟩ := setDefaultsWalk_mem dom d r.handlers p hp
            have hown := (hinst r hrmem).2 (p.fst, h1) hmem
            rw [hfid]
            exact hown
      · intro j rj rj2 hj hj2 k hh hkh
        by_cases hji : j = i
        · subst hji
          rw [hwi] at hj
          injection hj with hj
          subst hj
          rw [List.getElem?_set_eq hilen] at hj2
          injection hj2 with hj2
          subst hj2
          exact setDefaultsWalk_keyGet dom d r.handlers k hh hkh
        · rw [List.getElem?_set_ne (fun hE => hji hE.symm)] at hj2
          rw [hj] at hj2
          injection hj2 with hj2
          subst hj2
          exact ⟨hh, hkh, rfl⟩

/-- C4 witness: the preservation statement applied to the world holding
one instance that owns the demo key: registering a second handler for
the same key fails with the already-registered error and leaves the
world unchanged. -/
theorem registration_unique_owner_witness :
    applyRegOp demoWorld2 (.register 0 hDemo2) =
      (demoWorld2, some .alreadyRegistered) :=
  (registration_unique_owner demoWorld2 (.register 0 hDemo2)
      (by constructor
          · decide
          · intro r hr
            simp only [demoWorld2, List.mem_singleton] at hr
            subst hr
            refine ⟨by decide, ?_⟩
            intro p hp
            simp only [List.mem_singleton] at hp
            subst hp
            decide)).2.2.2 0 hDemo2
    ⟨⟨[(kDemo, hDemo)], []⟩, by simp [demoWorld2], by decide⟩

end D3M
